import Mathlib

/-!
Verification of the per-client fixed-window rate limiter and its use by the
chat request handler.

The limiter (`rateLimit`) is translated from the source file that defines
`type Bucket = { tokens: number; resetAt: number }`, the module-level
`buckets` map and `export function rateLimit(key, max, windowMs)`.
The process-wide mutable `Map` is made explicit: every operation takes the
current table and returns the updated table.  Timestamps, counters and the
per-call parameters are integers (`Int`), matching the integer arithmetic
the source performs on them.
-/

/-- One window record, from `type Bucket = { tokens: number; resetAt: number }`. -/
structure Bucket where
  tokens : Int
  resetAt : Int
deriving DecidableEq, Repr

/-- The key-to-record table, from `const buckets = new Map<string, Bucket>()`.
`none` means the map has no entry for the key. -/
def Buckets := String → Option Bucket

/-- The table of a freshly started process: no entries. -/
def emptyBuckets : Buckets := fun _ => none

/-- A one-entry table whose window for `key` is live until time 10 with no
admissions left; used to instantiate live-window statements. -/
def exhaustedTable (key : String) : Buckets :=
  fun k => if k = key then some { tokens := 0, resetAt := 10 } else none

/-- Result shape of `rateLimit`: `{ allowed: boolean; remaining: number; resetAt: number }`. -/
structure RLResult where
  allowed : Bool
  remaining : Int
  resetAt : Int
deriving DecidableEq, Repr

/-- Translation of `export function rateLimit(key, max, windowMs)`, with the implicit inputs
made explicit: `now` stands for `Date.now()` and the table is threaded through.
The source's `if (!bucket || bucket.resetAt <= now)` is linearised into the
`none` arm and the first `if` of the `some` arm; `buckets.set(key, fresh)` and
the in-place `bucket.tokens -= 1` become pointwise updates of the table. -/
def rateLimit (key : String) (max windowMs : Int) (now : Int) (buckets : Buckets) :
    RLResult × Buckets :=
  match buckets key with
  | none =>
    let resetAt := now + windowMs
    let fresh : Bucket := { tokens := max - 1, resetAt := resetAt }
    ({ allowed := true, remaining := fresh.tokens, resetAt := resetAt },
      fun k => if k = key then some fresh else buckets k)
  | some bucket =>
    if bucket.resetAt ≤ now then
      let resetAt := now + windowMs
      let fresh : Bucket := { tokens := max - 1, resetAt := resetAt }
      ({ allowed := true, remaining := fresh.tokens, resetAt := resetAt },
        fun k => if k = key then some fresh else buckets k)
    else if bucket.tokens ≤ 0 then
      ({ allowed := false, remaining := 0, resetAt := bucket.resetAt }, buckets)
    else
      let updated : Bucket := { tokens := bucket.tokens - 1, resetAt := bucket.resetAt }
      ({ allowed := true, remaining := updated.tokens, resetAt := bucket.resetAt },
        fun k => if k = key then some updated else buckets k)

/-- A sequence of `rateLimit` calls for one key: each entry of `times` is the
`Date.now()` value observed by the corresponding call; results are collected
in call order and the table is threaded through. -/
def runCalls (key : String) (max windowMs : Int) : List Int → Buckets → List RLResult × Buckets
  | [], s => ([], s)
  | t :: ts, s =>
    let step := rateLimit key max windowMs t s
    let rest := runCalls key max windowMs ts step.2
    (step.1 :: rest.1, rest.2)

/- Branch lemmas for `rateLimit`, one per arm of the source control flow. -/

lemma rateLimit_fresh_of_none {s : Buckets} {key : String} (max windowMs now : Int)
    (h : s key = none) :
    rateLimit key max windowMs now s =
      ({ allowed := true, remaining := max - 1, resetAt := now + windowMs },
        fun k => if k = key then some { tokens := max - 1, resetAt := now + windowMs } else s k) := by
  simp only [rateLimit, h]

lemma rateLimit_fresh_of_expired {s : Buckets} {key : String} {b : Bucket}
    (max windowMs now : Int) (h : s key = some b) (hexp : b.resetAt ≤ now) :
    rateLimit key max windowMs now s =
      ({ allowed := true, remaining := max - 1, resetAt := now + windowMs },
        fun k => if k = key then some { tokens := max - 1, resetAt := now + windowMs } else s k) := by
  simp only [rateLimit, h, if_pos hexp]

lemma rateLimit_reject {s : Buckets} {key : String} {b : Bucket}
    (max windowMs now : Int) (h : s key = some b) (hlive : now < b.resetAt)
    (hz : b.tokens ≤ 0) :
    rateLimit key max windowMs now s =
      ({ allowed := false, remaining := 0, resetAt := b.resetAt }, s) := by
  simp only [rateLimit, h, if_neg (not_le.mpr hlive), if_pos hz]

lemma rateLimit_decrement {s : Buckets} {key : String} {b : Bucket}
    (max windowMs now : Int) (h : s key = some b) (hlive : now < b.resetAt)
    (hpos : 0 < b.tokens) :
    rateLimit key max windowMs now s =
      ({ allowed := true, remaining := b.tokens - 1, resetAt := b.resetAt },
        fun k => if k = key then some { tokens := b.tokens - 1, resetAt := b.resetAt } else s k) := by
  simp only [rateLimit, h, if_neg (not_le.mpr hlive), if_neg (not_le.mpr hpos)]

/-- The call for `key` changes no entry other than `key`. -/
lemma rateLimit_frame {s : Buckets} {key k : String} (max windowMs now : Int)
    (hne : k ≠ key) : (rateLimit key max windowMs now s).2 k = s k := by
  unfold rateLimit
  cases h : s key with
  | none => simp [hne]
  | some b =>
    by_cases hexp : b.resetAt ≤ now
    · simp [hexp, hne]
    · by_cases hz : b.tokens ≤ 0
      · simp [hexp, hz]
      · simp [hexp, hz, hne]

/-- The result of a call depends only on the entry of the called key. -/
lemma rateLimit_result_congr {s₁ s₂ : Buckets} {key : String} (max windowMs now : Int)
    (h : s₁ key = s₂ key) :
    (rateLimit key max windowMs now s₁).1 = (rateLimit key max windowMs now s₂).1 := by
  unfold rateLimit
  rw [h]
  cases s₂ key with
  | none => rfl
  | some b =>
    by_cases hexp : b.resetAt ≤ now
    · simp [hexp]
    · by_cases hz : b.tokens ≤ 0
      · simp [hexp, hz]
      · simp [hexp, hz]

/-!  Embedding of the request-handling layer around the limiter. -/

/-- JavaScript `s.split(',')[0]`: the prefix of `s` up to (excluding) the
first comma; the whole string when it has no comma.  (`split` always returns a
non-empty array, so index 0 is always present.) -/
def jsSplitFirst (s : String) : String :=
  { data := s.data.takeWhile fun c => c ≠ ',' }

/-- JavaScript `s.trim()`: the string with leading and trailing whitespace
characters removed. -/
def jsTrim (s : String) : String :=
  { data := ((s.data.dropWhile Char.isWhitespace).reverse.dropWhile
      Char.isWhitespace).reverse }

/-- Client address extraction in the `POST` handler:
`req.headers.get('x-forwarded-for')?.split(',')[0]?.trim() || 'unknown'`.
`xff` is the header value (`none` when the header is absent); the JavaScript
falsy check on the empty string becomes the explicit `if t = ""`. -/
def clientIp (xff : Option String) : String :=
  match xff with
  | none => "unknown"
  | some h =>
    let first := jsSplitFirst h
    let t := jsTrim first
    if t = "" then "unknown" else t

/-- The limiter key built by the handler: `` `chat:${ip}` ``. -/
def chatKey (xff : Option String) : String := "chat:" ++ clientIp xff

/-- Translation of `export function getEnv(key, fallback?)`: `process.env[key] ?? fallback`,
throwing when the resulting value is absent or falsy (the empty string). -/
def getEnv (env : String → Option String) (key : String) (fallback : Option String) :
    Except String String :=
  match env key with
  | some v => if v = "" then .error ("Missing required env var: " ++ key) else .ok v
  | none =>
    match fallback with
    | some f => if f = "" then .error ("Missing required env var: " ++ key) else .ok f
    | none => .error ("Missing required env var: " ++ key)

/-- JavaScript `Number(s)` restricted to non-negative decimal integer strings,
the only values the configuration path produces; `none` stands for `NaN`. -/
def jsNumber? (s : String) : Option Int :=
  match s.data with
  | [] => none
  | cs =>
    if cs.all Char.isDigit then
      some (Int.ofNat (cs.foldl (fun acc c => 10 * acc + (c.toNat - 48)) 0))
    else none

/-- Accessor `ENV.RATE_LIMIT_WINDOW_MS: () => Number(getEnv('RATE_LIMIT_WINDOW_MS', '60000'))`. -/
def ENV.RATE_LIMIT_WINDOW_MS (env : String → Option String) : Except String (Option Int) :=
  (getEnv env "RATE_LIMIT_WINDOW_MS" (some "60000")).map jsNumber?

/-- Accessor `ENV.RATE_LIMIT_MAX: () => Number(getEnv('RATE_LIMIT_MAX', '30'))`. -/
def ENV.RATE_LIMIT_MAX (env : String → Option String) : Except String (Option Int) :=
  (getEnv env "RATE_LIMIT_MAX" (some "30")).map jsNumber?

/-- The observable data of an inbound chat request, as far as the handler's
control flow reads it: the forwarded-address header, whether
`bodySchema.safeParse` succeeds on the JSON body (the zod schema itself is an
external collaborator, abstracted to its verdict), and the base64 length of the
last message's inline image when one is present. -/
structure PostReq where
  xff : Option String
  bodyOk : Bool
  imageBase64Len : Option Nat

/-- The handler's response, identified by status code; the generated reply text
comes from the external model client and is abstracted away, keeping the
`remaining` count the 200 response reports. -/
inductive PostResponse where
  | status429 (resetAt : Int)
  | status400
  | status413
  | status200 (remaining : Int)
deriving DecidableEq, Repr

/-- The `POST` handler of the chat route, up to the external model call:
rate-limit first (keyed by `chat:` plus client address), 429 when not allowed,
then JSON parse / schema validation (400 on failure), then the oversized-image
check (413), then the model call (200).  `maxv` and `windowMs` are the values
the configuration accessors returned; the table is threaded through. -/
def POST (maxv windowMs : Int) (req : PostReq) (now : Int) (s : Buckets) :
    PostResponse × Buckets :=
  let step := rateLimit (chatKey req.xff) maxv windowMs now s
  if !step.1.allowed then (.status429 step.1.resetAt, step.2)
  else if !req.bodyOk then (.status400, step.2)
  else
    match req.imageBase64Len with
    | some n => if n > 8000000 then (.status413, step.2) else (.status200 step.1.remaining, step.2)
    | none => (.status200 step.1.remaining, step.2)

/-- Formalisation of the claimed key derivation, following the claim's words:
the client address is the first comma-separated entry of the forwarded-address
header, trimmed of whitespace, and is the sentinel literal "unknown" when the
header is absent. -/
def claimedClientAddress (xff : Option String) : String :=
  match xff with
  | none => "unknown"
  | some h => jsTrim (jsSplitFirst h)

/-- The amended key derivation: additionally, the sentinel "unknown" is used
when the first entry trims to the empty string. -/
def claimedClientAddressAmended (xff : Option String) : String :=
  match xff with
  | none => "unknown"
  | some h =>
    let t := jsTrim (jsSplitFirst h)
    if t = "" then "unknown" else t

/-- Every stored record has a non-negative admission count. -/
def tokensNonneg (s : Buckets) : Prop :=
  ∀ k b, s k = some b → 0 ≤ b.tokens

/-- Draining a live window: starting from a record with `j` admissions left,
`j + 1` calls inside the window admit `j` times with decreasing counts and
reject the last call. -/
lemma runCalls_drain (key : String) (max windowMs R : Int) :
    ∀ (j : Nat) (ts : List Int) (s : Buckets),
      s key = some { tokens := (j : Int), resetAt := R } →
      (∀ t ∈ ts, t < R) →
      ts.length = j + 1 →
      (runCalls key max windowMs ts s).1 =
        ((List.range j).map fun i : Nat =>
            ({ allowed := true, remaining := (j : Int) - 1 - (i : Int), resetAt := R } : RLResult))
          ++ [{ allowed := false, remaining := 0, resetAt := R }] := by
  intro j
  induction j with
  | zero =>
    intro ts s hs hts hlen
    match ts with
    | [t] =>
      have ht : t < R := hts t (by simp)
      simp only [runCalls,
        rateLimit_reject max windowMs t hs ht (by simp), List.range_zero,
        List.map_nil, List.nil_append]
  | succ j ih =>
    intro ts s hs hts hlen
    match ts with
    | t :: ts' =>
      have ht : t < R := hts t (by simp)
      have hts' : ∀ u ∈ ts', u < R := fun u hu => hts u (by simp [hu])
      have hlen' : ts'.length = j + 1 := by simpa using hlen
      have hdec := rateLimit_decrement max windowMs t hs ht (by positivity)
      have hs' : (rateLimit key max windowMs t s).2 key =
          some { tokens := (j : Int), resetAt := R } := by
        rw [hdec]
        simp only [if_pos rfl]
        push_cast
        ring_nf
      have hrest := ih ts' (rateLimit key max windowMs t s).2 hs' hts' hlen'
      simp only [runCalls]
      rw [hrest, hdec]
      rw [List.range_succ_eq_map, List.map_cons, List.map_map, List.cons_append]
      congr 1
      · simp only [RLResult.mk.injEq, Nat.cast_zero]
        refine ⟨trivial, by push_cast; ring, trivial⟩
      · congr 1
        apply List.map_congr_left
        intro i _
        simp only [Function.comp_apply, RLResult.mk.injEq]
        refine ⟨trivial, by push_cast; ring, trivial⟩

/-- The two window-starting arms combined: no record, or an expired one. -/
lemma rateLimit_fresh {s : Buckets} {key : String} (max windowMs now : Int)
    (h : s key = none ∨ ∃ b, s key = some b ∧ b.resetAt ≤ now) :
    rateLimit key max windowMs now s =
      ({ allowed := true, remaining := max - 1, resetAt := now + windowMs },
        fun k => if k = key then some { tokens := max - 1, resetAt := now + windowMs } else s k) := by
  rcases h with h | ⟨b, hb, hexp⟩
  · exact rateLimit_fresh_of_none max windowMs now h
  · exact rateLimit_fresh_of_expired max windowMs now hb hexp

/-- Every entry of the table after a call is the old entry, a fresh record, or
the old record with one admission consumed. -/
lemma rateLimit_state_cases (key k : String) (max windowMs now : Int) (s : Buckets) :
    (rateLimit key max windowMs now s).2 k = s k ∨
    (k = key ∧ (rateLimit key max windowMs now s).2 k =
        some { tokens := max - 1, resetAt := now + windowMs }) ∨
    (k = key ∧ ∃ b, s key = some b ∧ now < b.resetAt ∧ 0 < b.tokens ∧
        (rateLimit key max windowMs now s).2 k =
          some { tokens := b.tokens - 1, resetAt := b.resetAt }) := by
  by_cases hk : k = key
  · subst hk
    rcases hcase : s k with _ | b
    · right; left
      exact ⟨rfl, by rw [rateLimit_fresh_of_none max windowMs now hcase]; simp⟩
    · by_cases hexp : b.resetAt ≤ now
      · right; left
        exact ⟨rfl, by rw [rateLimit_fresh_of_expired max windowMs now hcase hexp]; simp⟩
      · by_cases hz : b.tokens ≤ 0
        · left
          rw [rateLimit_reject max windowMs now hcase (not_le.mp hexp) hz]
          exact hcase
        · right; right
          refine ⟨rfl, b, rfl, not_le.mp hexp, not_le.mp hz, ?_⟩
          rw [rateLimit_decrement max windowMs now hcase (not_le.mp hexp) (not_le.mp hz)]
          simp
  · left
    exact rateLimit_frame max windowMs now hk

/-- An admitted call consumed a slot for its key: the stored record is either
fresh with `max - 1` admissions left, or the old record minus one. -/
lemma rateLimit_allowed_consumes (key : String) (max windowMs now : Int) (s : Buckets)
    (hallow : (rateLimit key max windowMs now s).1.allowed = true) :
    ∃ b2, (rateLimit key max windowMs now s).2 key = some b2 ∧
      (b2.tokens = max - 1 ∨ ∃ b, s key = some b ∧ b2.tokens = b.tokens - 1) := by
  rcases hcase : s key with _ | b
  · rw [rateLimit_fresh_of_none max windowMs now hcase]
    exact ⟨{ tokens := max - 1, resetAt := now + windowMs }, by simp, Or.inl rfl⟩
  · by_cases hexp : b.resetAt ≤ now
    · rw [rateLimit_fresh_of_expired max windowMs now hcase hexp]
      exact ⟨{ tokens := max - 1, resetAt := now + windowMs }, by simp, Or.inl rfl⟩
    · by_cases hz : b.tokens ≤ 0
      · rw [rateLimit_reject max windowMs now hcase (not_le.mp hexp) hz] at hallow
        simp at hallow
      · rw [rateLimit_decrement max windowMs now hcase (not_le.mp hexp) (not_le.mp hz)]
        exact ⟨{ tokens := b.tokens - 1, resetAt := b.resetAt }, by simp, Or.inr ⟨b, rfl, rfl⟩⟩

/-- The handler's table after `POST` is exactly the table the limiter call left,
whatever branch produced the response. -/
lemma POST_state (maxv windowMs : Int) (req : PostReq) (now : Int) (s : Buckets) :
    (POST maxv windowMs req now s).2 =
      (rateLimit (chatKey req.xff) maxv windowMs now s).2 := by
  simp only [POST]
  cases hallow : (rateLimit (chatKey req.xff) maxv windowMs now s).1.allowed
  · simp
  · cases hbody : req.bodyOk
    · simp
    · rcases himg : req.imageBase64Len with _ | n
      · simp
      · by_cases hn : n > 8000000 <;> simp [hn]

/-- C2: a call on a key with no record, or with an expired record, starts a
fresh window: it stores `{ remaining := max - 1, expiresAt := now + windowMs }`
for the key and returns admitted with `remaining = max - 1` and
`windowResetAt` equal to the new expiry. -/
theorem fresh_window_start_stores_and_admits (key : String) (max windowMs now : Int)
    (s : Buckets) (h : s key = none ∨ ∃ b, s key = some b ∧ b.resetAt ≤ now) :
    rateLimit key max windowMs now s =
      ({ allowed := true, remaining := max - 1, resetAt := now + windowMs },
        fun k => if k = key then some { tokens := max - 1, resetAt := now + windowMs } else s k) :=
  rateLimit_fresh max windowMs now h

theorem fresh_window_start_stores_and_admits_witness :
    (emptyBuckets "k" = none ∨ ∃ b, emptyBuckets "k" = some b ∧ b.resetAt ≤ 7) ∧
    rateLimit "k" 5 100 7 emptyBuckets =
      ({ allowed := true, remaining := 4, resetAt := 107 },
        fun k => if k = "k" then some { tokens := 4, resetAt := 107 } else emptyBuckets k) :=
  ⟨Or.inl rfl, fresh_window_start_stores_and_admits "k" 5 100 7 emptyBuckets (Or.inl rfl)⟩

/-- C3: a call on a live window with no quota left is rejected with
`remaining = 0` and the stored expiry, and the whole table is unchanged. -/
theorem rejection_reports_zero_and_preserves_table (key : String) (max windowMs now : Int)
    (s : Buckets) (b : Bucket) (hb : s key = some b) (hlive : now < b.resetAt)
    (hz : b.tokens ≤ 0) :
    rateLimit key max windowMs now s =
      ({ allowed := false, remaining := 0, resetAt := b.resetAt }, s) :=
  rateLimit_reject max windowMs now hb hlive hz

theorem rejection_reports_zero_and_preserves_table_witness :
    (exhaustedTable "k" "k" = some { tokens := 0, resetAt := 10 } ∧ (5:Int) < 10 ∧ (0:Int) ≤ 0) ∧
    rateLimit "k" 3 100 5 (exhaustedTable "k") =
      ({ allowed := false, remaining := 0, resetAt := 10 }, exhaustedTable "k") :=
  ⟨⟨by decide, by norm_num, le_refl 0⟩,
    rejection_reports_zero_and_preserves_table "k" 3 100 5 (exhaustedTable "k")
      { tokens := 0, resetAt := 10 } (by decide) (by norm_num) (le_refl 0)⟩

/-- C5: a call for one key leaves every other key's record untouched, so the
admission decision of any later call on another key is unaffected. -/
theorem other_keys_unaffected (key k : String) (max windowMs now : Int) (s : Buckets)
    (hne : k ≠ key) :
    (rateLimit key max windowMs now s).2 k = s k ∧
    ∀ max2 w2 n2, (rateLimit k max2 w2 n2 (rateLimit key max windowMs now s).2).1 =
      (rateLimit k max2 w2 n2 s).1 :=
  ⟨rateLimit_frame max windowMs now hne,
    fun max2 w2 n2 => rateLimit_result_congr max2 w2 n2 (rateLimit_frame max windowMs now hne)⟩

theorem other_keys_unaffected_witness :
    ("b" ≠ "a") ∧
    ((rateLimit "a" 3 100 0 emptyBuckets).2 "b" = emptyBuckets "b" ∧
      ∀ max2 w2 n2, (rateLimit "b" max2 w2 n2 (rateLimit "a" 3 100 0 emptyBuckets).2).1 =
        (rateLimit "b" max2 w2 n2 emptyBuckets).1) :=
  ⟨by decide, other_keys_unaffected "a" "b" 3 100 0 emptyBuckets (by decide)⟩

/-- C7: on a live window the result and the new table do not depend on the
`max` and `windowMs` arguments of that call; the parameters supplied when the
window was created govern until it expires. -/
theorem live_window_ignores_call_parameters (key : String) (max1 w1 max2 w2 now : Int)
    (s : Buckets) (b : Bucket) (hb : s key = some b) (hlive : now < b.resetAt) :
    rateLimit key max1 w1 now s = rateLimit key max2 w2 now s := by
  by_cases hz : b.tokens ≤ 0
  · rw [rateLimit_reject max1 w1 now hb hlive hz, rateLimit_reject max2 w2 now hb hlive hz]
  · rw [rateLimit_decrement max1 w1 now hb hlive (not_le.mp hz),
      rateLimit_decrement max2 w2 now hb hlive (not_le.mp hz)]

theorem live_window_ignores_call_parameters_witness :
    (exhaustedTable "k" "k" = some { tokens := 0, resetAt := 10 } ∧ (5:Int) < 10) ∧
    rateLimit "k" 3 100 5 (exhaustedTable "k") = rateLimit "k" 99 77 5 (exhaustedTable "k") :=
  ⟨⟨by decide, by norm_num⟩,
    live_window_ignores_call_parameters "k" 3 100 99 77 5 (exhaustedTable "k")
      { tokens := 0, resetAt := 10 } (by decide) (by norm_num)⟩

/-- C1: a key with no record admits exactly `M` consecutive calls inside one
window (`remaining` running `M-1, M-2, ..., 0`) and the `(M+1)`-th call inside
the same window is rejected. -/
theorem fresh_key_admits_max_calls_then_rejects (M : Nat) (hM : 0 < M)
    (windowMs : Int) (_hW : 0 < windowMs) (key : String) (t0 : Int) (rest : List Int)
    (s : Buckets) (hkey : s key = none) (hlen : rest.length = M)
    (hrest : ∀ t ∈ rest, t0 ≤ t ∧ t < t0 + windowMs) :
    (runCalls key (M : Int) windowMs (t0 :: rest) s).1 =
      ((List.range M).map fun i : Nat =>
          ({ allowed := true, remaining := (M : Int) - 1 - (i : Int),
             resetAt := t0 + windowMs } : RLResult))
        ++ [{ allowed := false, remaining := 0, resetAt := t0 + windowMs }] := by
  obtain ⟨j, rfl⟩ := Nat.exists_eq_succ_of_ne_zero hM.ne'
  have hfresh := rateLimit_fresh_of_none ((j + 1 : Nat) : Int)
    windowMs t0 hkey
  have hs' : (rateLimit key ((j + 1 : Nat) : Int) windowMs t0 s).2 key =
      some { tokens := (j : Int), resetAt := t0 + windowMs } := by
    rw [hfresh]
    simp only [if_pos rfl]
    push_cast
    ring_nf
  have hdrain := runCalls_drain key ((j + 1 : Nat) : Int) windowMs (t0 + windowMs) j rest
    (rateLimit key ((j + 1 : Nat) : Int) windowMs t0 s).2 hs'
    (fun t ht => (hrest t ht).2) hlen
  simp only [runCalls]
  rw [hdrain, hfresh]
  rw [List.range_succ_eq_map, List.map_cons, List.map_map, List.cons_append]
  congr 1
  · simp only [RLResult.mk.injEq, Nat.cast_zero]
    refine ⟨trivial, by push_cast; ring, trivial⟩
  · congr 1
    apply List.map_congr_left
    intro i _
    simp only [Function.comp_apply, RLResult.mk.injEq]
    refine ⟨trivial, by push_cast; ring, trivial⟩

theorem fresh_key_admits_max_calls_then_rejects_witness :
    ((0:Nat) < 3 ∧ (0:Int) < 60000 ∧ emptyBuckets "k" = none ∧
      ([0, 0, 0] : List Int).length = 3 ∧
      (∀ t ∈ ([0, 0, 0] : List Int), (0:Int) ≤ t ∧ t < 0 + 60000)) ∧
    (runCalls "k" ((3 : Nat) : Int) 60000 (0 :: [0, 0, 0]) emptyBuckets).1 =
      ((List.range 3).map fun i : Nat =>
          ({ allowed := true, remaining := ((3 : Nat) : Int) - 1 - (i : Int),
             resetAt := 0 + 60000 } : RLResult))
        ++ [{ allowed := false, remaining := 0, resetAt := 0 + 60000 }] :=
  ⟨⟨by decide, by decide, rfl, by decide, by decide⟩,
    fresh_key_admits_max_calls_then_rejects 3 (by decide) 60000 (by decide) "k" 0
      [0, 0, 0] emptyBuckets rfl (by decide) (by decide)⟩

/-- C4: once `now` has reached the stored expiry of an exhausted window, the
next call starts a new window and is admitted with `remaining = max - 1`; the
`max = 1, windowMs = 1000` scenario at times 0, 500, 1001 yields
admitted/remaining pairs `(true,0), (false,0), (true,0)`. -/
theorem expired_window_restarts_and_scenario (key : String) (max windowMs now : Int)
    (s : Buckets) (b : Bucket) (hb : s key = some b) (_hex : b.tokens = 0)
    (hexp : b.resetAt ≤ now) :
    ((rateLimit key max windowMs now s).1.allowed = true ∧
      (rateLimit key max windowMs now s).1.remaining = max - 1) ∧
    ((runCalls "k" 1 1000 [0, 500, 1001] emptyBuckets).1.map
        fun r => (r.allowed, r.remaining)) =
      [(true, 0), (false, 0), (true, 0)] := by
  refine ⟨?_, by decide⟩
  rw [rateLimit_fresh_of_expired max windowMs now hb hexp]
  exact ⟨rfl, rfl⟩

theorem expired_window_restarts_and_scenario_witness :
    (exhaustedTable "k" "k" = some { tokens := 0, resetAt := 10 } ∧
      ({ tokens := 0, resetAt := 10 } : Bucket).tokens = 0 ∧
      ({ tokens := 0, resetAt := 10 } : Bucket).resetAt ≤ 10) ∧
    (((rateLimit "k" 7 50 10 (exhaustedTable "k")).1.allowed = true ∧
      (rateLimit "k" 7 50 10 (exhaustedTable "k")).1.remaining = 7 - 1) ∧
    ((runCalls "k" 1 1000 [0, 500, 1001] emptyBuckets).1.map
        fun r => (r.allowed, r.remaining)) =
      [(true, 0), (false, 0), (true, 0)]) :=
  ⟨⟨by decide, rfl, by norm_num⟩,
    expired_window_restarts_and_scenario "k" 7 50 10 (exhaustedTable "k")
      { tokens := 0, resetAt := 10 } (by decide) rfl (by norm_num)⟩

/-- C6: with `max ≥ 1` on the call, non-negativity of every stored `remaining`
is preserved, the stored `remaining` of a key never increases across a call
made while its window is live, and a call that starts a window stores exactly
`max - 1`. -/
theorem remaining_invariants (key : String) (max windowMs now : Int) (s : Buckets)
    (hmax : 1 ≤ max) :
    (tokensNonneg s → tokensNonneg (rateLimit key max windowMs now s).2) ∧
    (∀ b, s key = some b → now < b.resetAt →
      ∀ b2, (rateLimit key max windowMs now s).2 key = some b2 → b2.tokens ≤ b.tokens) ∧
    ((s key = none ∨ ∃ b, s key = some b ∧ b.resetAt ≤ now) →
      (rateLimit key max windowMs now s).2 key =
        some { tokens := max - 1, resetAt := now + windowMs }) := by
  refine ⟨?_, ?_, ?_⟩
  · intro hinv k b2 hkb
    rcases rateLimit_state_cases key k max windowMs now s with hsame | ⟨_, hfresh⟩ |
        ⟨_, b, hb, _, hpos, hdec⟩
    · exact hinv k b2 (hsame ▸ hkb)
    · rw [hfresh] at hkb
      injection hkb with h
      rw [← h]
      simpa using hmax
    · rw [hdec] at hkb
      injection hkb with h
      rw [← h]
      simp only []
      omega
  · intro b hb hlive b2 hb2
    by_cases hz : b.tokens ≤ 0
    · rw [rateLimit_reject max windowMs now hb hlive hz] at hb2
      simp only [] at hb2
      rw [hb] at hb2
      injection hb2 with h
      rw [← h]
    · rw [rateLimit_decrement max windowMs now hb hlive (not_le.mp hz)] at hb2
      simp only [if_pos rfl] at hb2
      injection hb2 with h
      rw [← h]
      simp only []
      omega
  · intro h
    rw [rateLimit_fresh max windowMs now h]
    simp

theorem remaining_invariants_witness :
    ((1:Int) ≤ 5) ∧
    ((tokensNonneg emptyBuckets → tokensNonneg (rateLimit "k" 5 100 0 emptyBuckets).2) ∧
    (∀ b, emptyBuckets "k" = some b → 0 < b.resetAt →
      ∀ b2, (rateLimit "k" 5 100 0 emptyBuckets).2 "k" = some b2 → b2.tokens ≤ b.tokens) ∧
    ((emptyBuckets "k" = none ∨ ∃ b, emptyBuckets "k" = some b ∧ b.resetAt ≤ 0) →
      (rateLimit "k" 5 100 0 emptyBuckets).2 "k" =
        some { tokens := 4, resetAt := 100 })) :=
  ⟨by norm_num, remaining_invariants "k" 5 100 0 emptyBuckets (by norm_num)⟩

/-- C9: when the documented precondition `max ≥ 1` is violated on a key with no
live window, the call is still admitted, reports and stores the negative count
`max - 1`, and only the second call inside the new window is rejected. -/
theorem nonpositive_max_admits_first_call (key : String) (max windowMs now : Int)
    (s : Buckets) (hmax : max ≤ 0)
    (h : s key = none ∨ ∃ b, s key = some b ∧ b.resetAt ≤ now) :
    (rateLimit key max windowMs now s).1 =
      { allowed := true, remaining := max - 1, resetAt := now + windowMs } ∧
    max - 1 < 0 ∧
    (rateLimit key max windowMs now s).2 key =
      some { tokens := max - 1, resetAt := now + windowMs } ∧
    ∀ max2 w2 now2, now2 < now + windowMs →
      (rateLimit key max2 w2 now2 (rateLimit key max windowMs now s).2).1 =
        { allowed := false, remaining := 0, resetAt := now + windowMs } := by
  have hkey2 : (rateLimit key max windowMs now s).2 key =
      some { tokens := max - 1, resetAt := now + windowMs } := by
    rw [rateLimit_fresh max windowMs now h]
    simp
  refine ⟨by rw [rateLimit_fresh max windowMs now h], by omega, hkey2, ?_⟩
  intro max2 w2 now2 hn
  rw [rateLimit_reject max2 w2 now2 hkey2 (by simpa using hn) (by simp; omega)]

theorem nonpositive_max_admits_first_call_witness :
    ((0:Int) ≤ 0 ∧ (emptyBuckets "k" = none ∨
        ∃ b, emptyBuckets "k" = some b ∧ b.resetAt ≤ 5)) ∧
    ((rateLimit "k" 0 100 5 emptyBuckets).1 =
      { allowed := true, remaining := -1, resetAt := 105 } ∧
    (-1:Int) < 0 ∧
    (rateLimit "k" 0 100 5 emptyBuckets).2 "k" =
      some { tokens := -1, resetAt := 105 } ∧
    ∀ max2 w2 now2, now2 < 105 →
      (rateLimit "k" max2 w2 now2 (rateLimit "k" 0 100 5 emptyBuckets).2).1 =
        { allowed := false, remaining := 0, resetAt := 105 }) :=
  ⟨⟨le_refl 0, Or.inl rfl⟩,
    nonpositive_max_admits_first_call "k" 0 100 5 emptyBuckets (le_refl 0) (Or.inl rfl)⟩

/-- C10: the handler consults the limiter before reading or validating the
body: whenever `POST` answers 400, the limiter had admitted the request, the
handler's table is the table that limiter call produced, and that call consumed
an admission slot for the request's key. -/
theorem status400_only_after_admission (maxv windowMs : Int) (req : PostReq)
    (now : Int) (s : Buckets)
    (h400 : (POST maxv windowMs req now s).1 = .status400) :
    (rateLimit (chatKey req.xff) maxv windowMs now s).1.allowed = true ∧
    (POST maxv windowMs req now s).2 =
      (rateLimit (chatKey req.xff) maxv windowMs now s).2 ∧
    ∃ b2, (POST maxv windowMs req now s).2 (chatKey req.xff) = some b2 ∧
      (b2.tokens = maxv - 1 ∨
        ∃ b, s (chatKey req.xff) = some b ∧ b2.tokens = b.tokens - 1) := by
  have hallow : (rateLimit (chatKey req.xff) maxv windowMs now s).1.allowed = true := by
    by_contra hfalse
    rw [Bool.not_eq_true] at hfalse
    simp only [POST, hfalse, Bool.not_false, if_true] at h400
    exact PostResponse.noConfusion h400
  refine ⟨hallow, POST_state maxv windowMs req now s, ?_⟩
  rw [POST_state maxv windowMs req now s]
  exact rateLimit_allowed_consumes (chatKey req.xff) maxv windowMs now s hallow

theorem status400_only_after_admission_witness :
    ((POST 30 60000 { xff := none, bodyOk := false, imageBase64Len := none } 0
        emptyBuckets).1 = .status400) ∧
    ((rateLimit (chatKey none) 30 60000 0 emptyBuckets).1.allowed = true ∧
    (POST 30 60000 { xff := none, bodyOk := false, imageBase64Len := none } 0
        emptyBuckets).2 = (rateLimit (chatKey none) 30 60000 0 emptyBuckets).2 ∧
    ∃ b2, (POST 30 60000 { xff := none, bodyOk := false, imageBase64Len := none } 0
        emptyBuckets).2 (chatKey none) = some b2 ∧
      (b2.tokens = 30 - 1 ∨
        ∃ b, emptyBuckets (chatKey none) = some b ∧ b2.tokens = b.tokens - 1)) :=
  ⟨by decide,
    status400_only_after_admission 30 60000
      { xff := none, bodyOk := false, imageBase64Len := none } 0 emptyBuckets (by decide)⟩

/-- C8 fails as stated: a present but empty forwarded-address header makes the
handler use the sentinel key `"chat:unknown"`, while the claimed derivation
yields the bare prefix `"chat:"`. -/
theorem chat_key_claim_counterexample :
    chatKey (some "") = "chat:unknown" ∧
    "chat:" ++ claimedClientAddress (some "") = "chat:" ∧
    chatKey (some "") ≠ "chat:" ++ claimedClientAddress (some "") := by
  refine ⟨by decide, by decide, ?_⟩
  decide

/-- C8 amended: the limiter key is `"chat:"` plus the first comma-separated
entry of the forwarded-address header trimmed of whitespace, with the sentinel
`"unknown"` both when the header is absent and when that trimmed entry is
empty; the configured limits default to 30 and 60000. -/
theorem chat_key_amended :
    (∀ xff, chatKey xff = "chat:" ++ claimedClientAddressAmended xff) ∧
    ENV.RATE_LIMIT_MAX (fun _ => none) = .ok (some 30) ∧
    ENV.RATE_LIMIT_WINDOW_MS (fun _ => none) = .ok (some 60000) := by
  refine ⟨?_, rfl, rfl⟩
  intro xff
  cases xff <;> rfl
